import Mathlib

/-!
Verification of the recommendation core of the Movie-Recommend-System
repository (src/app.py), as a shallow embedding in Lean 4.

Modelling choices, each mirroring the Python source:

* A Python string is modelled as a `List Nat` of Unicode code points
  (`Title`).  `str.strip` removes the leading/trailing ASCII whitespace
  characters; `str.lower` is modelled on the ASCII range (code points
  65..90 map to 97..122), which is its behaviour on all catalog titles.
* TF-IDF feature rows are modelled as `List Int` with exact integer
  arithmetic in place of floating point: every claim under study is about
  the ranking logic (order, ties, slicing), which is agnostic to the
  numeric carrier.
* `numpy.argsort` (default kind) is deterministic for a fixed input and,
  below its small-array threshold (which covers every concrete input
  below), is its stable insertion sort; there it coincides exactly with
  a stable ascending sort on the lexicographic key (value, position), an
  antisymmetric total order, so any correct sort computes the same
  unique permutation — we use `List.insertionSort` on that key order.
  Above the threshold numpy's default introsort guarantees no tie
  order, so any conclusion that reads off tie order is stated only
  under an explicit smallness hypothesis; conclusions insensitive to
  tie order transfer unconditionally.
* Python slicing `a[1:top_n+1]` is modelled with its exact semantics,
  including the negative-stop wrap-around (`pySliceFrom1`).
* A raised exception on the query path (out-of-range row access in
  `tfidf_matrix[idx]` or `df['title'].iloc[...]`) is modelled as `none`;
  a normal return of a list `l` is `some l`.
* The global triple `df, title_to_idx, tfidf_matrix = load_data()` is the
  `Snapshot` structure; a missing pickle file (`FileNotFoundError`) is an
  artifact field equal to `none`, and the `except` branches returning
  `(None, None, None)` are the all-`none` snapshot.
-/

namespace MovieRec

/-- A Python string as its list of Unicode code points. -/
abbrev Title := List Nat

/-- Code points stripped by `str.strip` (ASCII whitespace). -/
def isPySpace (n : Nat) : Bool :=
  n = 32 || n = 9 || n = 10 || n = 11 || n = 12 || n = 13

/-- `str.lower` on one code point (ASCII range, see header). -/
def pyLowerChar (n : Nat) : Nat :=
  if 65 ≤ n ∧ n ≤ 90 then n + 32 else n

/-- Left strip: drop leading whitespace. -/
def stripLeft (t : Title) : Title :=
  t.dropWhile isPySpace

/-- Right strip: drop trailing whitespace. -/
def stripRight (t : Title) : Title :=
  (t.reverse.dropWhile isPySpace).reverse

/-- Python `s.strip()`: drop leading and trailing whitespace. -/
def pyStrip (t : Title) : Title :=
  stripRight (stripLeft t)

/-- The normalization applied in app.py both at load time
(`str(k).strip().lower()`, line 57) and at query time
(`title.strip().lower()`, line 79). -/
def pyNormalize (t : Title) : Title :=
  (pyStrip t).map pyLowerChar

/-- Convenience conversion from a Lean string literal to `Title`. -/
def ofString (s : String) : Title :=
  s.data.map Char.toNat

/-- Inner product of two feature rows: one entry of
`(tfidf_matrix @ sig.T).toarray().flatten()`. -/
def dot (v w : List Int) : Int :=
  (List.zipWith (· * ·) v w).sum

/-- The key order of a stable ascending argsort of `xs`: position `i`
precedes position `j` when its value is smaller, or the values are equal
and `i ≤ j`.  This is an antisymmetric total order on positions. -/
def scoreLE (xs : List Int) (i j : Nat) : Prop :=
  xs.getD i 0 < xs.getD j 0 ∨ (xs.getD i 0 = xs.getD j 0 ∧ i ≤ j)

instance (xs : List Int) : DecidableRel (scoreLE xs) := fun i j => by
  unfold scoreLE; infer_instance

/-- `numpy.argsort` of `xs` with the default kind, modelled as a stable
ascending sort on the key (value, position).  The model is exact where
numpy's default introsort provably degenerates to its stable insertion
sort: arrays below the small-array threshold (all concrete inputs in
this file).  Above that threshold numpy guarantees no tie order for the
default kind, so every theorem below whose conclusion depends on tie
order carries an explicit smallness hypothesis; the rest (unique strict
maximizer placement, lengths, score monotonicity, determinism for a
fixed input) hold under any value-consistent deterministic sort. -/
def argsort (xs : List Int) : List Nat :=
  List.insertionSort (scoreLE xs) (List.range xs.length)

/-- Python slice `a[1 : n+1]`, with exact CPython semantics for the stop
bound: a negative stop counts from the end of the list. -/
def pySliceFrom1 (a : List α) (n : Int) : List α :=
  let stop : Int := n + 1
  let stop : Int := if stop < 0 then max ((a.length : Int) + stop) 0
                    else min stop (a.length : Int)
  (a.drop 1).take (stop - 1).toNat

/-- Python indexing `a[i]` for a possibly negative integer index, as used
by `tfidf_matrix[idx]`: a negative index counts from the end; an index
still out of range raises (`none`). -/
def pyRow (a : List (List Int)) (i : Int) : Option (List Int) :=
  if i < 0 then
    if (a.length : Int) + i < 0 then none else a.get? ((a.length : Int) + i).toNat
  else a.get? i.toNat

/-- `df['title'].iloc[movie_indices].tolist()`: look every position up in
the title column; an out-of-range position raises (`none`). -/
def ilocTitles (df : List Title) : List Nat → Option (List Title)
  | [] => some []
  | i :: rest =>
    match df.get? i with
    | none => none
    | some t => (ilocTitles df rest).map (t :: ·)

/-- Line 90 of app.py: `(tfidf_matrix @ sig.T).toarray().flatten()`, the
similarity score of every row against the query row `sig`. -/
def simScores (tfidf_matrix : List (List Int)) (sig : List Int) : List Int :=
  tfidf_matrix.map (fun row => dot row sig)

/-- Lines 88-93 of app.py: score every row against the query row `sig`,
argsort, reverse, and slice `[1 : top_n+1]`. -/
def simIndices (tfidf_matrix : List (List Int)) (sig : List Int) (top_n : Int) :
    List Nat :=
  pySliceFrom1 (argsort (simScores tfidf_matrix sig)).reverse top_n

/-- The loaded global state
`df, title_to_idx, tfidf_matrix = load_data()` (line 67): the title
column of `df`, the normalized title-to-position dictionary, and the
feature matrix.  Each is `none` when loading failed. -/
structure Snapshot where
  df : Option (List Title)
  title_to_idx : Option (Title → Option Int)
  tfidf_matrix : Option (List (List Int))

/-- `get_recommendations(title, top_n)` (lines 73-97 of app.py).
`none` models a raised exception; `some l` a returned list. -/
def get_recommendations (s : Snapshot) (title : Title) (top_n : Int) :
    Option (List Title) :=
  match s.df, s.tfidf_matrix with
  | some df, some tfidf =>
    match s.title_to_idx with
    | none => none
    | some title_to_idx =>
      match title_to_idx (pyNormalize title) with
      | none => some []
      | some idx =>
        match pyRow tfidf idx with
        | none => none
        | some sig => ilocTitles df (simIndices tfidf sig top_n)
  | _, _ => some []

/-- The three pickle artifacts read by `load_data` (lines 43-50):
the dataframe title column, the `indices` title-to-position pairs in
their iteration order, and the TF-IDF matrix.  A field is `none` when
the corresponding file is missing. -/
structure Artifacts where
  df : Option (List Title)
  indices : Option (List (Title × Int))
  tfidf_matrix : Option (List (List Int))

/-- One iteration of the dictionary-building loop (lines 56-57):
`title_to_idx[str(k).strip().lower()] = int(v)` — a later assignment to
the same key overwrites an earlier one. -/
def insertEntry (m : Title → Option Int) (kv : Title × Int) : Title → Option Int :=
  fun q => if q = pyNormalize kv.1 then some kv.2 else m q

/-- The dictionary built by the loop over `indices` (lines 53-57). -/
def buildTitleToIdx (entries : List (Title × Int)) : Title → Option Int :=
  entries.foldl insertEntry (fun _ => none)

/-- `load_data()` (lines 40-65): if any file is missing (or any load step
raises), every component is `None`; otherwise the three structures are
returned with no consistency validation between them. -/
def load_data (a : Artifacts) : Snapshot :=
  match a.df, a.indices, a.tfidf_matrix with
  | some df, some indices, some tfidf =>
    ⟨some df, some (buildTitleToIdx indices), some tfidf⟩
  | _, _, _ => ⟨none, none, none⟩

/-! ### Normalization lemmas -/

theorem pyLowerChar_idem (n : Nat) : pyLowerChar (pyLowerChar n) = pyLowerChar n := by
  unfold pyLowerChar
  split
  · next h =>
    have hnot : ¬ (65 ≤ n + 32 ∧ n + 32 ≤ 90) := by omega
    rw [if_neg hnot]
  · rfl

theorem isPySpace_pyLowerChar (n : Nat) : isPySpace (pyLowerChar n) = isPySpace n := by
  unfold pyLowerChar
  split
  · next h =>
    have h1 : isPySpace (n + 32) = false := by unfold isPySpace; simp; omega
    have h2 : isPySpace n = false := by unfold isPySpace; simp; omega
    rw [h1, h2]
  · rfl

theorem dropWhile_idem (p : α → Bool) (l : List α) :
    (l.dropWhile p).dropWhile p = l.dropWhile p := by
  induction l with
  | nil => rfl
  | cons a l ih =>
    by_cases h : p a
    · simp [List.dropWhile_cons, h, ih]
    · simp [List.dropWhile_cons, h]

theorem stripLeft_idem (t : Title) : stripLeft (stripLeft t) = stripLeft t := by
  simp [stripLeft, dropWhile_idem]

theorem stripRight_idem (t : Title) : stripRight (stripRight t) = stripRight t := by
  simp [stripRight, dropWhile_idem]

/-- A list whose head survives a left strip also keeps its head after a
right strip, so stripping it on the left again changes nothing. -/
theorem stripLeft_stripRight_of_stripLeft_eq (t : Title) (h : stripLeft t = t) :
    stripLeft (stripRight t) = stripRight t := by
  cases t with
  | nil => rfl
  | cons a t =>
    have ha : isPySpace a = false := by
      by_contra hcon
      have ha' : isPySpace a = true := by
        cases hq : isPySpace a
        · exact absurd hq hcon
        · rfl
      have hstep : stripLeft (a :: t) = stripLeft t := by
        simp [stripLeft, List.dropWhile_cons, ha']
      rw [hstep] at h
      have hlen : (stripLeft t).length ≤ t.length :=
        (List.dropWhile_sublist _).length_le
      rw [h] at hlen
      simp only [List.length_cons] at hlen
      omega
    unfold stripRight
    rw [List.reverse_cons, List.dropWhile_append]
    split
    · simp [stripLeft, List.dropWhile_cons, ha]
    · rw [List.reverse_append, List.reverse_cons, List.reverse_nil, List.nil_append]
      simp [stripLeft, List.dropWhile_cons, ha]

theorem pyStrip_idem (t : Title) : pyStrip (pyStrip t) = pyStrip t := by
  unfold pyStrip
  rw [stripLeft_stripRight_of_stripLeft_eq (stripLeft t) (stripLeft_idem t),
      stripRight_idem]

theorem stripLeft_map_pyLowerChar (t : Title) :
    stripLeft (t.map pyLowerChar) = (stripLeft t).map pyLowerChar := by
  have hp : (isPySpace ∘ pyLowerChar) = isPySpace := by
    funext n; exact isPySpace_pyLowerChar n
  unfold stripLeft
  rw [List.dropWhile_map, hp]

theorem stripRight_map_pyLowerChar (t : Title) :
    stripRight (t.map pyLowerChar) = (stripRight t).map pyLowerChar := by
  have hp : (isPySpace ∘ pyLowerChar) = isPySpace := by
    funext n; exact isPySpace_pyLowerChar n
  unfold stripRight
  rw [← List.map_reverse, List.dropWhile_map, hp, List.map_reverse]

theorem pyStrip_map_pyLowerChar (t : Title) :
    pyStrip (t.map pyLowerChar) = (pyStrip t).map pyLowerChar := by
  unfold pyStrip
  rw [stripLeft_map_pyLowerChar, stripRight_map_pyLowerChar]

theorem pyNormalize_idem (t : Title) :
    pyNormalize (pyNormalize t) = pyNormalize t := by
  unfold pyNormalize
  rw [pyStrip_map_pyLowerChar, pyStrip_idem, List.map_map]
  congr 1
  funext n
  exact pyLowerChar_idem n

/-! ### Argsort, slicing and title-materialization lemmas -/

theorem scoreLE_total (xs : List Int) (i j : Nat) : scoreLE xs i j ∨ scoreLE xs j i := by
  unfold scoreLE; omega

theorem scoreLE_trans (xs : List Int) (i j k : Nat) :
    scoreLE xs i j → scoreLE xs j k → scoreLE xs i k := by
  unfold scoreLE; omega

theorem argsort_perm (xs : List Int) : List.Perm (argsort xs) (List.range xs.length) :=
  List.perm_insertionSort _ _

theorem argsort_sorted (xs : List Int) : (argsort xs).Pairwise (scoreLE xs) := by
  haveI : IsTotal Nat (scoreLE xs) := ⟨fun a b => scoreLE_total xs a b⟩
  haveI : IsTrans Nat (scoreLE xs) := ⟨fun a b c => scoreLE_trans xs a b c⟩
  exact List.sorted_insertionSort _ _

theorem mem_argsort (xs : List Int) (i : Nat) : i ∈ argsort xs ↔ i < xs.length := by
  rw [(argsort_perm xs).mem_iff, List.mem_range]

theorem argsort_nodup (xs : List Int) : (argsort xs).Nodup :=
  ((argsort_perm xs).nodup_iff).mpr (List.nodup_range _)

theorem length_argsort (xs : List Int) : (argsort xs).length = xs.length :=
  (argsort_perm xs).length_eq.trans (List.length_range _)

theorem pySliceFrom1_sublist_drop (a : List α) (n : Int) :
    List.Sublist (pySliceFrom1 a n) (a.drop 1) := by
  unfold pySliceFrom1
  exact List.take_sublist _ _

theorem pySliceFrom1_sublist (a : List α) (n : Int) : List.Sublist (pySliceFrom1 a n) a :=
  (pySliceFrom1_sublist_drop a n).trans (List.drop_sublist _ _)

theorem length_pySliceFrom1_le (a : List α) (n : Int) (h : -1 ≤ n) :
    ((pySliceFrom1 a n).length : Int) ≤ max n 0 := by
  have hstop : ¬ (n + 1 < 0) := by omega
  simp only [pySliceFrom1, hstop, if_false, List.length_take, List.length_drop]
  omega

theorem length_pySliceFrom1_all (a : List α) (n : Int)
    (h : (a.length : Int) ≤ n) : (pySliceFrom1 a n).length = a.length - 1 := by
  have hstop : ¬ (n + 1 < 0) := by omega
  simp only [pySliceFrom1, hstop, if_false, List.length_take, List.length_drop]
  omega

theorem ilocTitles_length (df : List Title) (idxs : List Nat) (l : List Title)
    (h : ilocTitles df idxs = some l) : l.length = idxs.length := by
  induction idxs generalizing l with
  | nil =>
    unfold ilocTitles at h
    cases h
    rfl
  | cons i rest ih =>
    unfold ilocTitles at h
    cases hdf : df.get? i with
    | none => rw [hdf] at h; cases h
    | some t =>
      rw [hdf] at h
      cases hrec : ilocTitles df rest with
      | none => rw [hrec] at h; cases h
      | some l2 =>
        rw [hrec] at h
        cases h
        simp [ih l2 hrec]

theorem ilocTitles_mem (df : List Title) (idxs : List Nat) (l : List Title)
    (h : ilocTitles df idxs = some l) (x : Title) (hx : x ∈ l) :
    ∃ i ∈ idxs, df.get? i = some x := by
  induction idxs generalizing l with
  | nil =>
    unfold ilocTitles at h
    cases h
    cases hx
  | cons i rest ih =>
    unfold ilocTitles at h
    cases hdf : df.get? i with
    | none => rw [hdf] at h; cases h
    | some t =>
      rw [hdf] at h
      cases hrec : ilocTitles df rest with
      | none => rw [hrec] at h; cases h
      | some l2 =>
        rw [hrec] at h
        cases h
        rcases List.mem_cons.mp hx with hx | hx
        · exact ⟨i, List.mem_cons_self _ _, by rw [hdf, hx]⟩
        · rcases ih l2 hrec hx with ⟨j, hj, hjx⟩
          exact ⟨j, List.mem_cons_of_mem _ hj, hjx⟩

theorem pyRow_nonneg (a : List (List Int)) (i : Int) (h : 0 ≤ i) :
    pyRow a i = a.get? i.toNat := by
  unfold pyRow
  rw [if_neg (by omega)]

/-- On the success path (present snapshot, resolved title, in-range row)
`get_recommendations` materializes exactly the positions `simIndices`. -/
theorem get_recommendations_eq (df : List Title) (t2i : Title → Option Int)
    (tfidf : List (List Int)) (title : Title) (n : Int) (idx : Int) (sig : List Int)
    (hidx : t2i (pyNormalize title) = some idx)
    (hsig : pyRow tfidf idx = some sig) :
    get_recommendations ⟨some df, some t2i, some tfidf⟩ title n =
      ilocTitles df (simIndices tfidf sig n) := by
  simp only [get_recommendations, hidx, hsig]

/-- The unique strict maximizer of the similarity scores never survives
into the sliced ranking: it is the last element of the ascending argsort,
hence the head of the reversed sequence, and the slice starts at 1. -/
theorem argmax_not_mem_simIndices (tfidf : List (List Int)) (sig : List Int)
    (i0 : Nat) (hi0 : i0 < tfidf.length)
    (hmax : ∀ j, j < tfidf.length → j ≠ i0 →
      (simScores tfidf sig).getD j 0 < (simScores tfidf sig).getD i0 0)
    (n : Int) : i0 ∉ simIndices tfidf sig n := by
  set xs := simScores tfidf sig with hxs
  have hlen : xs.length = tfidf.length := by
    rw [hxs]; unfold simScores; exact List.length_map _ _
  have hmem : i0 ∈ argsort xs := (mem_argsort xs i0).mpr (by omega)
  rcases List.append_of_mem hmem with ⟨s, t, hsplit⟩
  have hsorted := argsort_sorted xs
  rw [hsplit] at hsorted
  have hnodup := argsort_nodup xs
  rw [hsplit] at hnodup
  rcases List.pairwise_append.mp hsorted with ⟨_, hpair2, _⟩
  rcases List.pairwise_cons.mp hpair2 with ⟨hforall, _⟩
  rcases List.nodup_append.mp hnodup with ⟨_, hnd2, hdisj⟩
  have ht : t = [] := by
    rw [List.eq_nil_iff_forall_not_mem]
    intro b hb
    have hbmem : b ∈ argsort xs := by
      rw [hsplit]
      exact List.mem_append_right _ (List.mem_cons_of_mem _ hb)
    have hblt : b < tfidf.length := by
      have := (mem_argsort xs b).mp hbmem
      omega
    have hbne : b ≠ i0 := by
      intro hcon
      exact (List.nodup_cons.mp hnd2).1 (hcon ▸ hb)
    have hlt := hmax b hblt hbne
    have hle := hforall b hb
    unfold scoreLE at hle
    omega
  subst ht
  intro hmemslice
  have hdrop : i0 ∈ ((argsort xs).reverse).drop 1 :=
    (pySliceFrom1_sublist_drop _ _).subset hmemslice
  rw [hsplit, List.reverse_append, List.reverse_cons, List.reverse_nil,
      List.nil_append, List.singleton_append, List.drop_one, List.tail_cons] at hdrop
  have : i0 ∈ s := List.mem_reverse.mp hdrop
  exact (hdisj this) (List.mem_cons_self _ _)

/-- The positions retained by the slice inherit the reversed sort order:
between an earlier position `i` and a later position `j`, `j` precedes
`i` in the ascending key order, and the two are distinct. -/
theorem simIndices_pairwise_key (tfidf : List (List Int)) (sig : List Int) (n : Int) :
    List.Pairwise (fun i j => scoreLE (simScores tfidf sig) j i ∧ i ≠ j)
      (simIndices tfidf sig n) := by
  have hrev : List.Pairwise (fun i j => scoreLE (simScores tfidf sig) j i)
      (argsort (simScores tfidf sig)).reverse :=
    List.pairwise_reverse.mpr (argsort_sorted _)
  have hnd : List.Pairwise (fun i j : Nat => i ≠ j)
      (argsort (simScores tfidf sig)).reverse :=
    List.nodup_reverse.mpr (argsort_nodup _)
  exact List.Pairwise.sublist (pySliceFrom1_sublist _ n) (hrev.and hnd)

/-! ### Concrete loaded snapshots used as counterexamples and witnesses -/

/-- A loaded snapshot of two items whose feature rows are identical, so
the query's self-similarity is tied with the other row. -/
def dupRowSnap : Snapshot :=
  ⟨some [ofString "a", ofString "b"],
   some (buildTitleToIdx [(ofString "a", 0), (ofString "b", 1)]),
   some [[1], [1]]⟩

/-- A loaded snapshot of three items: the query row `[1,0]` at position 0
and two identical rows `[0,1]` at positions 1 and 2 that score 0 against
it (a tie). -/
def threeSnap : Snapshot :=
  ⟨some [ofString "a", ofString "b", ofString "c"],
   some (buildTitleToIdx [(ofString "a", 0), (ofString "b", 1), (ofString "c", 2)]),
   some [[1, 0], [0, 1], [0, 1]]⟩

/-! ### Claims -/

/-- C2 counterexample: in `threeSnap`, positions 1 and 2 have equal
similarity scores against the query at position 0 (the score vector is
`[1, 0, 0]`), yet the result lists the title of position 2 before the
title of position 1 — the tie does not break by ascending position. -/
theorem c2_counterexample :
    simScores [[1, 0], [0, 1], [0, 1]] [1, 0] = [1, 0, 0] ∧
    get_recommendations threeSnap (ofString "a") 2 =
      some [ofString "c", ofString "b"] := by
  constructor <;> decide

/-- C2 (amended): no ascending tie-break exists.  In the regime where
`numpy.argsort`'s default kind provably is its stable insertion sort —
matrices below the small-array threshold, which is where the stable
`argsort` model is exact (the hypothesis `tfidf.length < 16` keeps the
statement inside that regime) — ties in the ranking break by
*descending* position: an earlier position `i` and a later position `j`
of the ranked sequence satisfy either score j < score i, or the scores
are equal and `j < i`.  For larger matrices the code leaves tie order to
the unstable default introsort, which guarantees no tie order at all. -/
theorem c2_tie_break_descending (tfidf : List (List Int)) (sig : List Int) (n : Int)
    (_hsmall : tfidf.length < 16) :
    List.Pairwise (fun i j =>
      (simScores tfidf sig).getD j 0 < (simScores tfidf sig).getD i 0 ∨
      ((simScores tfidf sig).getD j 0 = (simScores tfidf sig).getD i 0 ∧ j < i))
      (simIndices tfidf sig n) := by
  refine (simIndices_pairwise_key tfidf sig n).imp ?_
  intro i j h
  rcases h with ⟨hle, hne⟩
  unfold scoreLE at hle
  omega

/-- C2 witness: the descending tie-break on the 3-row matrix of
`threeSnap` (inside the stable small-array regime), whose ranked
positions for the query at 0 are `[2, 1]` with equal scores. -/
theorem c2_witness :
    List.Pairwise (fun i j =>
      (simScores [[1, 0], [0, 1], [0, 1]] [1, 0]).getD j 0 <
        (simScores [[1, 0], [0, 1], [0, 1]] [1, 0]).getD i 0 ∨
      ((simScores [[1, 0], [0, 1], [0, 1]] [1, 0]).getD j 0 =
        (simScores [[1, 0], [0, 1], [0, 1]] [1, 0]).getD i 0 ∧ j < i))
      (simIndices [[1, 0], [0, 1], [0, 1]] [1, 0] 2) :=
  c2_tie_break_descending [[1, 0], [0, 1], [0, 1]] [1, 0] 2 (by decide)

/-- C6 (confirmed): on the success path the returned sequence is the
title materialization of `simIndices`, whose adjacent positions carry
non-increasing similarity scores. -/
theorem c6_rank_ordering (df : List Title) (t2i : Title → Option Int)
    (tfidf : List (List Int)) (q : Title) (n : Int) (idx : Int) (sig : List Int)
    (hidx : t2i (pyNormalize q) = some idx)
    (h0 : 0 ≤ idx)
    (hsig : tfidf.get? idx.toNat = some sig) :
    get_recommendations ⟨some df, some t2i, some tfidf⟩ q n =
      ilocTitles df (simIndices tfidf sig n) ∧
    List.Chain' (fun i j =>
      (simScores tfidf sig).getD j 0 ≤ (simScores tfidf sig).getD i 0)
      (simIndices tfidf sig n) := by
  constructor
  · exact get_recommendations_eq df t2i tfidf q n idx sig hidx
      (by rw [pyRow_nonneg _ _ h0]; exact hsig)
  · refine List.Pairwise.chain' ((simIndices_pairwise_key tfidf sig n).imp ?_)
    intro i j h
    rcases h with ⟨hle, _⟩
    unfold scoreLE at hle
    omega

/-- C6 witness: the rank-ordering theorem instantiated on `threeSnap`
with the query resolved at position 0. -/
theorem c6_witness :
    get_recommendations threeSnap (ofString "a") 2 =
      ilocTitles [ofString "a", ofString "b", ofString "c"]
        (simIndices [[1, 0], [0, 1], [0, 1]] [1, 0] 2) ∧
    List.Chain' (fun i j =>
      (simScores [[1, 0], [0, 1], [0, 1]] [1, 0]).getD j 0 ≤
      (simScores [[1, 0], [0, 1], [0, 1]] [1, 0]).getD i 0)
      (simIndices [[1, 0], [0, 1], [0, 1]] [1, 0] 2) :=
  c6_rank_ordering [ofString "a", ofString "b", ofString "c"]
    (buildTitleToIdx [(ofString "a", 0), (ofString "b", 1), (ofString "c", 2)])
    [[1, 0], [0, 1], [0, 1]] (ofString "a") 2 0 [1, 0]
    (by decide) (by decide) (by decide)

/-- C1 counterexample: in `dupRowSnap` the query's row at position 0 is
duplicated at position 1, so the self-similarity score is tied.  The code
removes only the first element of the reversed ranking — here position 1
(the tie-break of the reversed stable argsort puts the larger position
first) — and the output contains the query's own title. -/
theorem c1_counterexample :
    (buildTitleToIdx [(ofString "a", 0), (ofString "b", 1)])
        (pyNormalize (ofString "a")) = some 0 ∧
    get_recommendations dupRowSnap (ofString "a") 10 = some [ofString "a"] := by
  constructor <;> decide

/-- C1 (amended): what is removed before truncation is the first position
of the reversed ranking, not the query's position.  When the query's
similarity score is the strict unique maximum, that first position is the
query's, so the query's position is excluded from the ranked sequence;
and if the query's display title occurs at no other position, the output
never contains it. -/
theorem c1_self_exclusion_amended (df : List Title) (t2i : Title → Option Int)
    (tfidf : List (List Int)) (q qt : Title) (n : Int) (idx : Int) (sig : List Int)
    (hidx : t2i (pyNormalize q) = some idx)
    (h0 : 0 ≤ idx)
    (hsig : tfidf.get? idx.toNat = some sig)
    (hmax : ∀ j, j < tfidf.length → j ≠ idx.toNat →
      (simScores tfidf sig).getD j 0 < (simScores tfidf sig).getD idx.toNat 0)
    (_hqt : df.get? idx.toNat = some qt)
    (huniq : ∀ j, j ≠ idx.toNat → df.get? j ≠ some qt) :
    idx.toNat ∉ simIndices tfidf sig n ∧
    ∀ l, get_recommendations ⟨some df, some t2i, some tfidf⟩ q n = some l →
      qt ∉ l := by
  have hi0 : idx.toNat < tfidf.length := by
    rcases List.get?_eq_some.mp hsig with ⟨hlt, _⟩
    exact hlt
  have hnot := argmax_not_mem_simIndices tfidf sig idx.toNat hi0 hmax n
  refine ⟨hnot, ?_⟩
  intro l hl hmem
  rw [get_recommendations_eq df t2i tfidf q n idx sig hidx
    (by rw [pyRow_nonneg _ _ h0]; exact hsig)] at hl
  rcases ilocTitles_mem df _ l hl qt hmem with ⟨j, hj, hjx⟩
  by_cases hje : j = idx.toNat
  · exact hnot (hje ▸ hj)
  · exact huniq j hje hjx

/-- C1 witness: the amended self-exclusion theorem on `threeSnap`, whose
query at position 0 scores 1 against itself and 0 against both others. -/
theorem c1_witness :
    (0 : Nat) ∉ simIndices [[1, 0], [0, 1], [0, 1]] [1, 0] 2 ∧
    ∀ l, get_recommendations threeSnap (ofString "a") 2 = some l →
      ofString "a" ∉ l :=
  c1_self_exclusion_amended [ofString "a", ofString "b", ofString "c"]
    (buildTitleToIdx [(ofString "a", 0), (ofString "b", 1), (ofString "c", 2)])
    [[1, 0], [0, 1], [0, 1]] (ofString "a") (ofString "a") 2 0 [1, 0]
    (by decide) (by decide) (by decide)
    (by
      intro j hj hne
      have hj3 : j < 3 := by simpa using hj
      interval_cases j
      · exact absurd rfl hne
      · decide
      · decide)
    (by decide)
    (by
      intro j hjne
      by_cases hlt : j < 3
      · interval_cases j
        · exact absurd rfl hjne
        · decide
        · decide
      · have hnone : ([ofString "a", ofString "b", ofString "c"] : List Title).get? j
            = none := List.get?_eq_none.mpr (by simp; omega)
        rw [hnone]
        simp)

/-- C3 counterexample: `recommend(t, -2)` on the three-item snapshot
returns one title, not the empty sequence, because the Python slice
`[1 : -2+1]` has a negative stop that counts from the end; the claimed
bound `max(-2, 0) = 0` is violated. -/
theorem c3_counterexample :
    get_recommendations threeSnap (ofString "a") (-2) = some [ofString "c"] ∧
    ¬ (((([ofString "c"] : List Title).length : Int)) ≤ max (-2) 0) := by
  constructor <;> decide

/-- C3 (amended): the bound `length(recommend(t, n)) ≤ max(n, 0)` holds
for every `n ≥ -1` (so `recommend(t, 0) = []` and `recommend(t, -1) = []`),
but not for `n ≤ -2`, where the negative slice stop wraps around; and when
`n` is at least the number of rows, the slice keeps all rows except the
dropped first one. -/
theorem c3_topn_bound_amended :
    (∀ (s : Snapshot) (t : Title) (n : Int) (l : List Title), -1 ≤ n →
      get_recommendations s t n = some l → (l.length : Int) ≤ max n 0) ∧
    (∀ (tfidf : List (List Int)) (sig : List Int) (n : Int),
      (tfidf.length : Int) ≤ n →
      (simIndices tfidf sig n).length = tfidf.length - 1) := by
  constructor
  · intro s t n l hn hl
    have hmax : (0 : Int) ≤ max n 0 := le_max_right n 0
    rcases s with ⟨odf, ot2i, otf⟩
    cases odf with
    | none => cases otf <;> (cases hl; simp)
    | some df =>
      cases otf with
      | none => cases hl; simp
      | some tfidf =>
        cases ot2i with
        | none => exact absurd hl (by simp [get_recommendations])
        | some t2i =>
          simp only [get_recommendations] at hl
          cases ht : t2i (pyNormalize t) with
          | none => simp only [ht] at hl; cases hl; simp
          | some idx =>
            simp only [ht] at hl
            cases hrow : pyRow tfidf idx with
            | none => exact Option.noConfusion (by simpa only [hrow] using hl)
            | some sig =>
              simp only [hrow] at hl
              have hlen := ilocTitles_length df _ l hl
              rw [hlen]
              exact length_pySliceFrom1_le _ n hn
  · intro tfidf sig n hn
    have hlen : ((argsort (simScores tfidf sig)).reverse).length = tfidf.length := by
      rw [List.length_reverse, length_argsort]
      unfold simScores
      exact List.length_map _ _
    unfold simIndices
    rw [length_pySliceFrom1_all _ _ (by rw [hlen]; exact hn), hlen]

/-- C3 witness: both parts of the amended bound on `threeSnap` with
`n = 2` and on its matrix with `n = 5`. -/
theorem c3_witness :
    (([ofString "c", ofString "b"] : List Title).length : Int) ≤ max 2 0 ∧
    (simIndices [[1, 0], [0, 1], [0, 1]] [1, 0] 5).length = 3 - 1 :=
  ⟨c3_topn_bound_amended.1 threeSnap (ofString "a") 2
      [ofString "c", ofString "b"] (by decide) (by decide),
   c3_topn_bound_amended.2 [[1, 0], [0, 1], [0, 1]] [1, 0] 5 (by decide)⟩

/-- C4 counterexample: artifacts whose feature matrix has 2 rows while
the catalog table has 1 entry load successfully into a fully populated
snapshot — `load_data` performs no shape-consistency validation and
reports no error. -/
theorem c4_counterexample :
    (load_data ⟨some [ofString "a"], some [(ofString "a", 0)],
        some [[1], [2]]⟩).df = some [ofString "a"] ∧
    (load_data ⟨some [ofString "a"], some [(ofString "a", 0)],
        some [[1], [2]]⟩).tfidf_matrix = some [[1], [2]] ∧
    ([ofString "a"] : List Title).length = 1 ∧
    ([[1], [2]] : List (List Int)).length = 2 :=
  ⟨rfl, rfl, rfl, rfl⟩

/-- C4 (amended): a missing artifact does yield a fully-failed load —
every component of the snapshot is `none`, never a partially valid
structure — but no shape-consistency check exists: artifacts with
mismatched row counts load successfully (see the counterexample). -/
theorem c4_failfast_amended (a : Artifacts)
    (h : a.df = none ∨ a.indices = none ∨ a.tfidf_matrix = none) :
    load_data a = ⟨none, none, none⟩ := by
  rcases a with ⟨adf, aind, atf⟩
  cases adf <;> cases aind <;> cases atf <;> first | rfl | simp_all

/-- C4 witness: the fail-fast theorem applied to artifacts whose
dataframe file is missing. -/
theorem c4_witness :
    load_data ⟨none, some [(ofString "a", 0)], some [[1]]⟩ = ⟨none, none, none⟩ :=
  c4_failfast_amended ⟨none, some [(ofString "a", 0)], some [[1]]⟩ (Or.inl rfl)

/-- C5 (confirmed): when the normalized query is not a key of the title
index, `get_recommendations` returns the empty list as a normal value
(`some []`, never the exception marker `none`). -/
theorem c5_not_found (df : List Title) (t2i : Title → Option Int)
    (tfidf : List (List Int)) (q : Title) (n : Int)
    (h : t2i (pyNormalize q) = none) :
    get_recommendations ⟨some df, some t2i, some tfidf⟩ q n = some [] := by
  simp only [get_recommendations, h]

/-- C5 witness: the spec's own example query on the three-item
snapshot. -/
theorem c5_witness :
    get_recommendations threeSnap (ofString "definitely-not-a-title-xyz123") 5 =
      some [] :=
  c5_not_found [ofString "a", ofString "b", ofString "c"]
    (buildTitleToIdx [(ofString "a", 0), (ofString "b", 1), (ofString "c", 2)])
    [[1, 0], [0, 1], [0, 1]] (ofString "definitely-not-a-title-xyz123") 5
    (by decide)

/-- C7 (confirmed): normalization is idempotent; the two example strings
normalize to identical keys; and since the identical `pyNormalize` is
applied to keys at load time and to the query at query time, the result
of `get_recommendations` depends on the query title only through its
normalized form — a catalog title queried with extra whitespace or
different case resolves identically. -/
theorem c7_normalization :
    (∀ t : Title, pyNormalize (pyNormalize t) = pyNormalize t) ∧
    pyNormalize (ofString "  The Matrix ") = pyNormalize (ofString "the matrix") ∧
    (∀ (s : Snapshot) (q q2 : Title) (n : Int), pyNormalize q = pyNormalize q2 →
      get_recommendations s q n = get_recommendations s q2 n) := by
  refine ⟨pyNormalize_idem, by decide, ?_⟩
  intro s q q2 n h
  unfold get_recommendations
  rw [h]

/-- C7 witness: idempotence at a concrete title, and a query of
`"  A "` resolving exactly like `"a"` on the three-item snapshot. -/
theorem c7_witness :
    pyNormalize (pyNormalize (ofString "  A ")) = pyNormalize (ofString "  A ") ∧
    get_recommendations threeSnap (ofString "  A ") 2 =
      get_recommendations threeSnap (ofString "a") 2 :=
  ⟨c7_normalization.1 (ofString "  A "),
   c7_normalization.2.2 threeSnap (ofString "  A ") (ofString "a") 2 (by decide)⟩

/-- C8 (confirmed): `get_recommendations` is a pure function of the
loaded snapshot and its arguments — two calls against an identical
snapshot return identical sequences, tie order included; the only
potential source of nondeterminism in the source, `numpy.argsort`, is
itself deterministic for a fixed input array and is modelled as the
function `argsort`. -/
theorem c8_determinism (s1 s2 : Snapshot) (q : Title) (n : Int) (h : s1 = s2) :
    get_recommendations s1 q n = get_recommendations s2 q n := by
  rw [h]

/-- C8 witness: two identical calls on the three-item snapshot. -/
theorem c8_witness :
    get_recommendations threeSnap (ofString "a") 2 =
      get_recommendations threeSnap (ofString "a") 2 :=
  c8_determinism threeSnap threeSnap (ofString "a") 2 rfl

/-- Folding the insertion loop over entries none of which carry the key
`k` leaves the lookup of `k` unchanged. -/
theorem foldl_insertEntry_no_match (l : List (Title × Int))
    (m : Title → Option Int) (k : Title)
    (h : ∀ kv ∈ l, pyNormalize kv.1 ≠ k) :
    (l.foldl insertEntry m) k = m k := by
  induction l generalizing m with
  | nil => rfl
  | cons kv l ih =>
    rw [List.foldl_cons, ih _ (fun kv2 h2 => h kv2 (List.mem_cons_of_mem _ h2))]
    unfold insertEntry
    rw [if_neg]
    intro hcon
    exact h kv (List.mem_cons_self _ _) hcon.symm

/-- C9 (confirmed): when two entries of the loaded `indices` artifact
normalize to the same key and no later entry carries that key, the title
index built by `load_data` maps the key to the position of the
later-loaded entry. -/
theorem c9_last_write_wins (df : List Title) (tfidf : List (List Int))
    (pre mid post : List (Title × Int)) (k1 k2 : Title) (v1 v2 : Int)
    (_hdup : pyNormalize k1 = pyNormalize k2)
    (hpost : ∀ kv ∈ post, pyNormalize kv.1 ≠ pyNormalize k2) :
    ∃ t2i,
      (load_data ⟨some df, some (pre ++ (k1, v1) :: mid ++ (k2, v2) :: post),
          some tfidf⟩).title_to_idx = some t2i ∧
      t2i (pyNormalize k2) = some v2 := by
  refine ⟨_, rfl, ?_⟩
  unfold buildTitleToIdx
  have hassoc : pre ++ (k1, v1) :: mid ++ (k2, v2) :: post =
      (pre ++ (k1, v1) :: mid) ++ ((k2, v2) :: post) := by
    simp
  rw [hassoc, List.foldl_append, List.foldl_cons,
      foldl_insertEntry_no_match post _ _ hpost]
  unfold insertEntry
  rw [if_pos rfl]

/-- C9 witness: entries `[("A", 0), ("a", 5)]` both normalize to the key
of `"a"`; the built index maps it to 5, the later position. -/
theorem c9_witness :
    ∃ t2i,
      (load_data ⟨some [], some [(ofString "A", 0), (ofString "a", 5)],
          some []⟩).title_to_idx = some t2i ∧
      t2i (pyNormalize (ofString "a")) = some 5 :=
  c9_last_write_wins [] [] [] [] [] (ofString "A") (ofString "a") 0 5
    (by decide) (by intro kv h; cases h)

/-- C10 (confirmed): when the snapshot is degraded — `df` or
`tfidf_matrix` is `None` after a failed load — `get_recommendations`
returns the empty list for every title and every `top_n`, raising
nothing. -/
theorem c10_degraded_load (s : Snapshot) (q : Title) (n : Int)
    (h : s.df = none ∨ s.tfidf_matrix = none) :
    get_recommendations s q n = some [] := by
  rcases s with ⟨odf, ot2i, otf⟩
  rcases h with h | h
  · cases h
    cases otf <;> rfl
  · cases h
    cases odf <;> rfl

/-- C10 witness: the fully failed snapshot returned by a failed
`load_data`. -/
theorem c10_witness :
    get_recommendations ⟨none, none, none⟩ (ofString "a") 10 = some [] :=
  c10_degraded_load ⟨none, none, none⟩ (ofString "a") 10 (Or.inl rfl)

end MovieRec
